import Mathlib

/-!
# Verification of the geodesyNets quadrature / sampling core

A shallow embedding of the numerical core of the `gravann` package
(`_integration.py` and `_sample_observation_points.py`) and proofs about it.

Modelling conventions:
* 3-D points are triples of rationals (`V3`); float arithmetic is modelled by
  exact rational arithmetic.
* The Euclidean norm (`torch.norm`), the neural density field, the Sobol table
  and the uniform random stream (`torch.rand`) are abstract parameters: the
  claims under study only depend on how the code combines their values, never
  on their numeric content.
* Python exceptions are modelled with `Except PyError`: Python float division
  by zero raises (`pydiv`), out-of-range tensor indexing raises (`getOrErr`),
  and adding two tensors whose leading dimensions differ raises
  (`tensorAdd` returning `none`).  Element-wise torch tensor division has no
  zero check (it produces inf/nan, never raises), so it is modelled by total
  field division on `ℚ`.
-/

namespace Gravann

/-- Python / torch runtime errors that the modelled code can raise. -/
inductive PyError where
  | valueError
  | zeroDivisionError
  | indexError
  | runtimeError
  deriving DecidableEq, Repr

/-- A 3-D point, as one row of an `(n,3)` tensor. -/
abbrev V3 : Type := ℚ × ℚ × ℚ

/-- torch addition of two `(n,3)` (or `(n,1)`) tensors: element-wise when the
leading dimensions agree, a runtime broadcasting error otherwise.
(The broadcast-against-size-1 rule never applies at the call sites modelled
here, where both operands are full batches.) -/
def tensorAdd {α : Type} [Add α] (a b : List α) : Option (List α) :=
  if a.length = b.length then some (List.zipWith (· + ·) a b) else none

/-- Python float division: raises `ZeroDivisionError` on a zero denominator. -/
def pydiv (a b : ℚ) : Except PyError ℚ :=
  if b = 0 then .error .zeroDivisionError else .ok (a / b)

/-- Python `int()` on a float: truncation toward zero. -/
def pytrunc (q : ℚ) : ℤ :=
  if 0 ≤ q then ⌊q⌋ else ⌈q⌉

/-- Indexing `t[i]` into a 1-D tensor: `IndexError` when out of bounds. -/
def getOrErr {α : Type} (l : List α) (i : ℕ) : Except PyError α :=
  if h : i < l.length then .ok (l.get ⟨i, h⟩) else .error .indexError

/-- Linear search for the first `n ≥ start` satisfying `p`, with enough fuel.
Used to model `int(np.round(np.cbrt ·))` and `int(np.round(np.sqrt ·))`
exactly (no half-integer root of an integer exists, so round-half-to-even
never differs from round-half-up on these inputs). -/
def searchFrom (p : ℕ → Bool) : ℕ → ℕ → ℕ
  | 0, n => n
  | fuel + 1, n => if p n then n else searchFrom p fuel (n + 1)

/-- `int(np.round(np.cbrt B))`: the integer nearest to the real cube root of
`B`, i.e. the least `n` with `8B < (2n+1)³`. -/
def roundCbrt (B : ℕ) : ℕ :=
  searchFrom (fun n => decide (8 * B < (2 * n + 1) ^ 3)) (B + 1) 0

/-- `int(np.round(np.sqrt N))`: the integer nearest to the real square root of
`N`, i.e. the least `n` with `4N < (2n+1)²`. -/
def roundSqrt (N : ℕ) : ℕ :=
  searchFrom (fun n => decide (4 * N < (2 * n + 1) ^ 2)) (N + 1) 0

/-- `torch.linspace a b n`: `n` evenly spaced points from `a` to `b`
(inclusive).  For `n = 1` torch returns `[a]`, which the formula also yields
because `ℚ` division by `0` is `0`. -/
def linspace (a b : ℚ) (n : ℕ) : List ℚ :=
  (List.range n).map (fun i : ℕ => a + (i : ℚ) * ((b - a) / ((n : ℚ) - 1)))

/-- The `[0,1)³ → [-1,1)³` remap `p * 2 - 1` applied to one point. -/
def vremap (v : V3) : V3 :=
  (2 * v.1 - 1, 2 * v.2.1 - 1, 2 * v.2.2 - 1)

/-! ## `compute_integration_grid` (src/gravann/_integration.py, lines 222-246)

`N = int(np.round(np.cbrt(N)))`; `grid_1d = torch.linspace(-1, 1, N)`;
`h = grid_1d[1] - grid_1d[0]` (an `IndexError` when the rounded resolution is
below 2); `x, y, z = torch.meshgrid(grid_1d, grid_1d, grid_1d)` followed by
`stack`/`flatten`/`transpose`, so the flat point with index `(i*N + j)*N + k`
is `(grid_1d[i], grid_1d[j], grid_1d[k])`; optional additive jitter
`torch.rand(N**3, 3) * noise`. -/

/-- The meshgrid-and-flatten step of `compute_integration_grid`. -/
def meshFlatten (grid : List ℚ) (n : ℕ) : List V3 :=
  (List.range n).flatMap (fun i =>
    (List.range n).flatMap (fun j =>
      (List.range n).map (fun k => (grid.getD i 0, grid.getD j 0, grid.getD k 0))))

/-- `compute_integration_grid(N, noise)`: sample points, spacing `h`, and the
per-axis resolution.  `rand` models the `torch.rand` stream of jitter rows. -/
def compute_integration_grid (rand : ℕ → V3) (noise : ℚ) (N : ℕ) :
    Except PyError (List V3 × ℚ × ℕ) :=
  let n := roundCbrt N
  let grid := linspace (-1) 1 n
  match getOrErr grid 1, getOrErr grid 0 with
  | .ok g1, .ok g0 =>
    let h := g1 - g0
    let pts := meshFlatten grid n
    if 0 < noise then
      match tensorAdd pts ((List.range (n ^ 3)).map (fun j => noise • rand j)) with
      | some pts' => .ok (pts', h, n)
      | none => .error .runtimeError
    else
      .ok (pts, h, n)
  | _, _ => .error .indexError

/-! ## Low-discrepancy Monte Carlo integrators
(`U_ld`, lines 46-77, and `ACC_ld`, lines 134-168 of
src/gravann/_integration.py)

The process-wide Sobol table `sobol_points` is a parameter `table` (the module
initialiser fills it with 200,000 rows in `[0,1)³`).  `rho` stands for the
density values `_compute_model_output(model, encoding, ·)` evaluated
pointwise, `tnorm` for the Euclidean norm `torch.norm(·, dim=1)` of one row,
and `rand` for the `torch.rand` stream.  Both integrators build
`sobol_points[:N,:] * 2 - 1 + torch.rand(N, 3) * noise`; when
`N > len(table)` the numpy slice holds only `len(table)` rows while the
jitter holds `N`, so the torch addition raises a broadcasting
`RuntimeError`. -/

/-- One jittered low-discrepancy sample point (row `j`). -/
def ldSample (table : List V3) (rand : ℕ → V3) (noise : ℚ) (j : ℕ) : V3 :=
  vremap (table.getD j 0) + noise • rand j

/-- `U_ld(target_points, model, encoding, N, noise)`: the console messages it
prints, paired with its result. -/
def U_ld (tnorm : V3 → ℚ) (rho : V3 → ℚ) (table : List V3) (rand : ℕ → V3)
    (targets : List V3) (N : ℕ) (noise : ℚ) :
    List String × Except PyError (List ℚ) :=
  let warns := if table.length < N then
    ["Too many points the sobol sequence stored in a global variable only contains 200000."]
    else []
  match tensorAdd ((table.take N).map vremap)
      ((List.range N).map (fun j => noise • rand j)) with
  | none => (warns, .error .runtimeError)
  | some sample_points =>
    (warns, .ok (targets.map (fun t =>
      -8 * ((sample_points.map (fun s => rho s / tnorm (t - s))).sum / (N : ℚ)))))

/-- `ACC_ld(target_points, model, encoding, N, noise)`. -/
def ACC_ld (tnorm : V3 → ℚ) (rho : V3 → ℚ) (table : List V3) (rand : ℕ → V3)
    (targets : List V3) (N : ℕ) (noise : ℚ) : Except PyError (List V3) :=
  if table.length < N then .error .valueError
  else
    match tensorAdd ((table.take N).map vremap)
        ((List.range N).map (fun j => noise • rand j)) with
    | none => .error .runtimeError
    | some sample_points =>
      .ok (targets.map (fun t =>
        (-8 : ℚ) • ((N : ℚ)⁻¹ •
          (sample_points.map (fun s =>
            (rho s / tnorm (t - s) ^ 3) • (t - s))).sum)))

/-- The spec's formula for one row of `ACC_ld`:
`-8/N · Σ_{j<N} ρ(s_j) · (t - s_j) / ‖t - s_j‖³` over the jittered
low-discrepancy samples `s_j`. -/
def ACC_ld_specRow (tnorm : V3 → ℚ) (rho : V3 → ℚ) (table : List V3)
    (rand : ℕ → V3) (noise : ℚ) (N : ℕ) (t : V3) : V3 :=
  (-(8 / (N : ℚ))) • ∑ j ∈ Finset.range N,
    rho (ldSample table rand noise j) •
      ((tnorm (t - ldSample table rand noise j) ^ 3)⁻¹ •
        (t - ldSample table rand noise j))

/-! ## Trapezoid integrators
(`U_trap_opt`, lines 82-129, and `ACC_trap`, lines 171-219 of
src/gravann/_integration.py)

The flat integrand batch is reshaped to an `N×N×N` lattice (`[N,N,N,3]` for
the acceleration, modelled as an `N×N×N` lattice of `V3` rows) and reduced by
three sequential slice-add-scale-sum steps.  The tensor ops are modelled on
nested lists; both operands of each addition are slices of one tensor, so
their shapes always agree and plain `zipWith` is torch's behaviour. -/

section Trap

variable {α : Type} [AddCommGroup α] [Module ℚ α]

/-- torch `reshape([n,n,n])` of a flat row-major batch: element `(i,j,k)` is
flat index `(i*n+j)*n + k`.  (Callers check the size first.) -/
def reshape3 (n : ℕ) (flat : List α) : List (List (List α)) :=
  (List.range n).map (fun i =>
    (List.range n).map (fun j =>
      (List.range n).map (fun k => flat.getD ((i * n + j) * n + k) 0)))

/-- `t[:, 0:-1]` and `t[:, 1:]` on a 2-D tensor, `h/2 * (· + ·)`, and
`torch.sum(·, dim=last)`, as nested-list operations. -/
def t1add (a b : List α) : List α := List.zipWith (· + ·) a b

def t2add (a b : List (List α)) : List (List α) := List.zipWith t1add a b

def t3add (a b : List (List (List α))) : List (List (List α)) :=
  List.zipWith t2add a b

def t1smul (c : ℚ) (l : List α) : List α := l.map (c • ·)

def t2smul (c : ℚ) (t : List (List α)) : List (List α) := t.map (t1smul c)

def t3smul (c : ℚ) (t : List (List (List α))) : List (List (List α)) :=
  t.map (t2smul c)

def t2sliceLow (t : List (List α)) : List (List α) := t.map List.dropLast

def t2sliceHigh (t : List (List α)) : List (List α) := t.map List.tail

def t3sliceLow (t : List (List (List α))) : List (List (List α)) :=
  t.map (fun r => r.map List.dropLast)

def t3sliceHigh (t : List (List (List α))) : List (List (List α)) :=
  t.map (fun r => r.map List.tail)

def t3sumLast (t : List (List (List α))) : List (List α) :=
  t.map (fun r => r.map List.sum)

def t2sumLast (t : List (List α)) : List α := t.map List.sum

/-- The innermost-axis reduction applied to a 1-D lattice slice:
`(h/2 * (l[0:-1] + l[1:])).sum()`. -/
def trapZ (hv : ℚ) (l : List α) : α :=
  (t1smul (hv / 2) (t1add l.dropLast l.tail)).sum

/-- `int_x`: reduce the innermost axis of the 3-D lattice. -/
def trapX (hv : ℚ) (t : List (List (List α))) : List (List α) :=
  t3sumLast (t3smul (hv / 2) (t3add (t3sliceLow t) (t3sliceHigh t)))

/-- `int_y`: reduce the (now) innermost axis of the 2-D tensor. -/
def trapY (hv : ℚ) (t : List (List α)) : List α :=
  t2sumLast (t2smul (hv / 2) (t2add (t2sliceLow t) (t2sliceHigh t)))

/-- The full reduction `int_z` of a flat batch of `n³` integrand values. -/
def trapReduce (hv : ℚ) (n : ℕ) (flat : List α) : α :=
  trapZ hv (trapY hv (trapX hv (reshape3 n flat)))

/-- Per-target body shared verbatim by `U_trap_opt` and `ACC_trap`:
reshape each target's integrand batch (`RuntimeError` when the size is not
`N³`, reached only when there is at least one target), reduce, negate. -/
def trapBody (integrand : V3 → V3 → α) (targets : List V3) (pts : List V3)
    (hv : ℚ) (n : ℕ) : Except PyError (List α) :=
  if targets.isEmpty then .ok []
  else if pts.length = n * n * n then
    .ok (targets.map (fun t => -trapReduce hv n (pts.map (integrand t))))
  else .error .runtimeError

/-- Grid determination shared by `U_trap_opt` and `ACC_trap`: build the grid
when no `sample_points` are passed, otherwise require `h` (`ValueError` when
it is missing). -/
def trapCommon (integrand : V3 → V3 → α) (targets : List V3) (N : ℕ)
    (noise : ℚ) (rand : ℕ → V3) (sample_points : Option (List V3))
    (h : Option ℚ) : Except PyError (List α) :=
  match sample_points with
  | none =>
    match compute_integration_grid rand noise N with
    | .error e => .error e
    | .ok (pts, hv, n) => trapBody integrand targets pts hv n
  | some pts =>
    match h with
    | none => .error .valueError
    | some hv => trapBody integrand targets pts hv N

end Trap

/-- `U_trap_opt(target_points, model, encoding, N, verbose, noise,
sample_points, h)` with integrand `rho/‖t - s‖`. -/
def U_trap_opt (tnorm : V3 → ℚ) (rho : V3 → ℚ) (targets : List V3) (N : ℕ)
    (noise : ℚ) (rand : ℕ → V3) (sample_points : Option (List V3))
    (h : Option ℚ) : Except PyError (List ℚ) :=
  trapCommon (fun t s => rho s / tnorm (t - s)) targets N noise rand
    sample_points h

/-- `ACC_trap(...)` with integrand `rho·(t - s)/‖t - s‖³`. -/
def ACC_trap (tnorm : V3 → ℚ) (rho : V3 → ℚ) (targets : List V3) (N : ℕ)
    (noise : ℚ) (rand : ℕ → V3) (sample_points : Option (List V3))
    (h : Option ℚ) : Except PyError (List V3) :=
  trapCommon (fun t s => (rho s / tnorm (t - s) ^ 3) • (t - s)) targets N
    noise rand sample_points h

section TrapSpecDefs

variable {α : Type} [AddCommGroup α] [Module ℚ α]

/-- One composite-trapezoid axis reduction as the spec words it: a length-`n`
axis becomes `n-1` cells, each contributing `h/2·(left+right)`. -/
def trapAxis (hv : ℚ) (n : ℕ) (g : ℕ → α) : α :=
  ∑ i ∈ Finset.range (n - 1), (hv / 2) • (g i + g (i + 1))

/-- The spec's sequential triple-trapezoid reduction, innermost axis first. -/
def trapTriple (hv : ℚ) (n : ℕ) (F : ℕ → ℕ → ℕ → α) : α :=
  trapAxis hv n (fun i => trapAxis hv n (fun j => trapAxis hv n (F i j)))

end TrapSpecDefs

/-! ## `_compute_model_output` (src/gravann/_integration.py, lines 264-288)

Encoded network inputs are float rows that may hold NaNs; a float is
modelled as `FP`, either a rational value or NaN.  torch's
`x != x` elementwise test is exactly the NaN test, and
`nn_inputs[nn_inputs != nn_inputs] = 0.0` zeroes exactly the NaN entries. -/

/-- A floating-point scalar: a numeric value or NaN. -/
inductive FP where
  | num (q : ℚ)
  | nan
  deriving DecidableEq, Repr

/-- `x != x`, which holds exactly for NaN. -/
def FP.isNaN : FP → Bool
  | .num _ => false
  | .nan => true

/-- `torch.any(nn_inputs != nn_inputs)` over a 2-D batch of encoded rows. -/
def anyNaN (inputs : List (List FP)) : Bool :=
  inputs.any (fun row => row.any FP.isNaN)

/-- `nn_inputs[nn_inputs != nn_inputs] = 0.0`: zero every NaN entry. -/
def zeroNaNs (inputs : List (List FP)) : List (List FP) :=
  inputs.map (fun row => row.map (fun x => if x.isNaN then .num 0 else x))

/-- `_compute_model_output(model, encoding, sample_points)`: the Boolean
records whether the NaN warning was emitted. -/
def _compute_model_output {μ : Type} (model : List (List FP) → μ)
    (encoding : V3 → List FP) (sample_points : List V3) : Bool × μ :=
  let nn_inputs := sample_points.map encoding
  if anyNaN nn_inputs then (true, model (zeroNaNs nn_inputs))
  else (false, model nn_inputs)

/-! ## `_get_spherical_grid` (src/gravann/_sample_observation_points.py,
lines 34-55)

`π`, `sin` and `cos` are abstract parameters (`qpi`, `qsin`, `qcos`): the
claim under study concerns only the number of points produced by the
meshgrid, which is independent of their values. -/

/-- `_get_spherical_grid(N, radius)`. -/
def _get_spherical_grid (qpi : ℚ) (qsin qcos : ℚ → ℚ) (N : ℕ)
    (radius : ℚ) : List V3 :=
  let n := roundSqrt N
  let offset := qpi / ((n : ℚ) + 2)
  let grid_1d := linspace offset (qpi - offset) n
  (List.range n).flatMap (fun i =>
    (List.range n).map (fun j =>
      (radius * qsin (grid_1d.getD i 0) * qcos (2 * grid_1d.getD j 0),
       radius * qsin (grid_1d.getD i 0) * qsin (2 * grid_1d.getD j 0),
       radius * qcos (grid_1d.getD i 0))))

/-! ## `_limit_to_domain` and `_sample_cubical`
(src/gravann/_sample_observation_points.py, lines 58-75 and 115-140)

`scale_bounds` values are Python floats, so `scale_bounds[0]/scale_bounds[1]`
and `1.0/(1.0 - approx)` raise `ZeroDivisionError` on zero denominators
(`pydiv`), `int(...)` truncates toward zero (`pytrunc`), and
`torch.rand(k, 3)` raises a `RuntimeError` for negative `k`. -/

/-- A cuboid domain: per-axis `(low, high)` bounds. -/
abbrev Domain : Type := (ℚ × ℚ) × (ℚ × ℚ) × (ℚ × ℚ)

/-- `_limit_to_domain(points, domain)`: keep exactly the points with some
coordinate strictly outside the domain. -/
def _limit_to_domain (points : List V3) (domain : Domain) : List V3 :=
  points.filter (fun p =>
    (decide (p.1 < domain.1.1) || decide (p.1 > domain.1.2)) ||
    (decide (p.2.1 < domain.2.1.1) || decide (p.2.1 > domain.2.1.2)) ||
    (decide (p.2.2 < domain.2.2.1) || decide (p.2.2 > domain.2.2.2)))

/-- `_sample_cubical(N, scale_bounds)`. -/
def _sample_cubical (rand : ℕ → V3) (N : ℕ) (s0 s1 : ℚ) :
    Except PyError (List V3) :=
  match pydiv s0 s1 with
  | .error e => .error e
  | .ok ratio =>
    let approx := ratio ^ 3
    match pydiv 1 (1 - approx) with
    | .error e => .error e
    | .ok inv =>
      let approx_necessary_samples : ℤ := pytrunc (2 * (N : ℚ) * inv)
      if approx_necessary_samples < 0 then .error .runtimeError
      else
        let points := (List.range approx_necessary_samples.toNat).map
          (fun j => s1 • ((2 : ℚ) • rand j - ((1 : ℚ), (1 : ℚ), (1 : ℚ))))
        let domain : Domain :=
          ((s0 * (-1), s0 * 1), (s0 * (-1), s0 * 1), (s0 * (-1), s0 * 1))
        .ok ((_limit_to_domain points domain).take N)

/-- A stand-in for the module's concrete Sobol table (200,000 rows). -/
def tableStub : List V3 := List.replicate 200000 0

/-! ## Supporting lemmas -/

section ListLemmas

variable {α β γ : Type}

/-- `zipWith` of two maps of the same list is a single map. -/
theorem zipWith_map_same (f : β → γ → α) (g : β' → β) (g' : β' → γ)
    (l : List β') : List.zipWith f (l.map g) (l.map g') =
      l.map (fun x => f (g x) (g' x)) := by
  induction l with
  | nil => rfl
  | cons a t ih => simp [List.zipWith, ih]

/-- `dropLast` commutes with `map`. -/
theorem dropLast_map (g : β → α) (l : List β) :
    (l.map g).dropLast = l.dropLast.map g :=
  (List.map_dropLast g l).symm

/-- `dropLast` of `range n` is `range (n-1)`. -/
theorem dropLast_range (n : ℕ) :
    (List.range n).dropLast = List.range (n - 1) := by
  cases n with
  | zero => rfl
  | succ m => rw [List.range_succ, List.dropLast_concat, Nat.succ_sub_one]

/-- `tail` of `range n` is `range (n-1)` shifted by one. -/
theorem tail_range (n : ℕ) :
    (List.range n).tail = (List.range (n - 1)).map (· + 1) := by
  cases n with
  | zero => rfl
  | succ m =>
    rw [List.range_succ_eq_map, Nat.succ_sub_one, List.tail_cons]

/-- The sum of a function mapped over `List.range` as a `Finset.range` sum;
this holds definitionally, `Finset.range` being the coercion of
`List.range`. -/
theorem sum_map_range {α : Type} [AddCommMonoid α] (n : ℕ) (f : ℕ → α) :
    (List.map f (List.range n)).sum = ∑ i ∈ Finset.range n, f i := rfl

/-- Elements of `take n` of a long-enough list, by index. -/
theorem map_take_eq_map_range (f : β → α) (d : β) :
    ∀ (n : ℕ) (l : List β), n ≤ l.length →
      (l.take n).map f = (List.range n).map (fun j => f (l.getD j d)) := by
  intro n
  induction n with
  | zero => intro l _; rfl
  | succ m ih =>
    intro l hl
    cases l with
    | nil => simp at hl
    | cons a t =>
      rw [List.take_succ_cons, List.map_cons, List.range_succ_eq_map,
        List.map_cons, List.map_map]
      simp only [List.length_cons, Nat.succ_le_succ_iff] at hl
      rw [ih t hl]
      simp [Function.comp, List.getD_cons_succ, List.getD_cons_zero]

end ListLemmas

section SearchLemmas

/-- Specification of `searchFrom`: starting below a satisfying point with
enough fuel, it returns the least satisfying index. -/
theorem searchFrom_spec (p : ℕ → Bool) :
    ∀ (fuel n : ℕ), p (n + fuel) = true → (∀ m < n, p m = false) →
      p (searchFrom p fuel n) = true ∧
        ∀ m < searchFrom p fuel n, p m = false := by
  intro fuel
  induction fuel with
  | zero =>
    intro n hp hlow
    simpa [searchFrom] using ⟨hp, hlow⟩
  | succ f ih =>
    intro n hp hlow
    by_cases hn : p n = true
    · have hs : searchFrom p (f + 1) n = n := by simp [searchFrom, hn]
      rw [hs]
      exact ⟨hn, hlow⟩
    · have hf : p n = false := by simpa using hn
      have hs : searchFrom p (f + 1) n = searchFrom p f (n + 1) := by
        simp [searchFrom, hf]
      rw [hs]
      refine ih (n + 1) ?_ ?_
      · have : n + 1 + f = n + (f + 1) := by omega
        rw [this]; exact hp
      · intro m hm
        rcases Nat.lt_succ_iff_lt_or_eq.mp hm with h | h
        · exact hlow m h
        · subst h; exact hf

/-- `roundCbrt` characterisation: it is the unique `n` with
`(n - 1/2)³ ≤ B < (n + 1/2)³` (after scaling by 8), i.e. the integer nearest
to the real cube root of `B`. -/
theorem roundCbrt_spec (B : ℕ) :
    8 * B < (2 * roundCbrt B + 1) ^ 3 ∧
      ∀ m < roundCbrt B, ¬(8 * B < (2 * m + 1) ^ 3) := by
  have hfuel : (fun n => decide (8 * B < (2 * n + 1) ^ 3)) (0 + (B + 1)) = true := by
    simp only [decide_eq_true_eq, Nat.zero_add]
    have hring : (2 * (B + 1) + 1) ^ 3 = 8 * B ^ 3 + 36 * B ^ 2 + (54 * B + 27) := by
      ring
    rw [hring]
    exact lt_of_lt_of_le (by omega) (Nat.le_add_left _ _)
  have h := searchFrom_spec (fun n => decide (8 * B < (2 * n + 1) ^ 3))
    (B + 1) 0 hfuel (by intro m hm; omega)
  refine ⟨by simpa using h.1, ?_⟩
  intro m hm
  have := h.2 m hm
  simpa using this

/-- `roundSqrt` characterisation: least `n` with `4N < (2n+1)²`. -/
theorem roundSqrt_spec (N : ℕ) :
    4 * N < (2 * roundSqrt N + 1) ^ 2 ∧
      ∀ m < roundSqrt N, ¬(4 * N < (2 * m + 1) ^ 2) := by
  have hfuel : (fun n => decide (4 * N < (2 * n + 1) ^ 2)) (0 + (N + 1)) = true := by
    simp only [decide_eq_true_eq, Nat.zero_add]
    have hring : (2 * (N + 1) + 1) ^ 2 = 4 * N ^ 2 + (12 * N + 9) := by ring
    rw [hring]
    exact lt_of_lt_of_le (by omega) (Nat.le_add_left _ _)
  have h := searchFrom_spec (fun n => decide (4 * N < (2 * n + 1) ^ 2))
    (N + 1) 0 hfuel (by intro m hm; omega)
  refine ⟨by simpa using h.1, ?_⟩
  intro m hm
  have := h.2 m hm
  simpa using this

end SearchLemmas

/-- Length of `flatMap` when every block has the same length. -/
theorem length_flatMap_const {α β : Type} (l : List α) (f : α → List β) (m : ℕ)
    (h : ∀ a ∈ l, (f a).length = m) :
    (l.flatMap f).length = l.length * m := by
  rw [List.length_flatMap]
  have hrep : l.map (List.length ∘ f) = List.replicate l.length m := by
    rw [show l.length = (l.map (List.length ∘ f)).length from
      (List.length_map _ _).symm]
    exact List.eq_replicate_length.mpr (by
      intro b hb
      rcases List.mem_map.mp hb with ⟨a, ha, rfl⟩
      exact h a ha)
  rw [hrep, List.sum_replicate, smul_eq_mul]

theorem length_meshFlatten (grid : List ℚ) (n : ℕ) :
    (meshFlatten grid n).length = n ^ 3 := by
  rw [meshFlatten, length_flatMap_const _ _ (n * n) (fun a _ => by
    rw [length_flatMap_const _ _ n (fun b _ => by
      rw [List.length_map, List.length_range]), List.length_range])]
  rw [List.length_range]
  ring

theorem length_linspace (a b : ℚ) (n : ℕ) : (linspace a b n).length = n := by
  rw [linspace, List.length_map, List.length_range]

/-- A successful (in-bounds) read of a `linspace` grid. -/
theorem getOrErr_linspace (a b : ℚ) (n i : ℕ) (h : i < n) :
    getOrErr (linspace a b n) i = .ok (a + i * ((b - a) / ((n : ℚ) - 1))) := by
  have hl : i < (linspace a b n).length := by rw [length_linspace]; exact h
  rw [getOrErr, dif_pos hl]
  simp only [linspace, List.get_eq_getElem, List.getElem_map, List.getElem_range]

/-- When both input lengths agree, `tensorAdd` succeeds with the `zipWith`. -/
theorem tensorAdd_of_length_eq {α : Type} [Add α] {a b : List α}
    (h : a.length = b.length) :
    tensorAdd a b = some (List.zipWith (· + ·) a b) := by
  simp [tensorAdd, h]

/-- `compute_integration_grid` succeeds exactly when the rounded resolution is
at least 2, and then returns `n³` points, the spacing `grid[1] - grid[0]`,
and `n = roundCbrt N`. -/
theorem compute_integration_grid_ok (rand : ℕ → V3) (noise : ℚ) (N : ℕ)
    (hn : 2 ≤ roundCbrt N) :
    ∃ pts, compute_integration_grid rand noise N =
        .ok (pts, 2 / ((roundCbrt N : ℚ) - 1), roundCbrt N) ∧
      pts.length = roundCbrt N ^ 3 := by
  set n := roundCbrt N with hdefn
  have hg1 := getOrErr_linspace (-1) 1 n 1 (by omega)
  have hg0 := getOrErr_linspace (-1) 1 n 0 (by omega)
  have hh : ((-1 : ℚ) + (1 : ℕ) * ((1 - (-1)) / ((n : ℚ) - 1))) -
      ((-1) + (0 : ℕ) * ((1 - (-1)) / ((n : ℚ) - 1))) = 2 / ((n : ℚ) - 1) := by
    push_cast
    ring
  by_cases hnoise : 0 < noise
  · refine ⟨List.zipWith (· + ·) (meshFlatten (linspace (-1) 1 n) n)
      ((List.range (n ^ 3)).map (fun j => noise • rand j)), ?_, ?_⟩
    · rw [compute_integration_grid]
      simp only [← hdefn, hg1, hg0, if_pos hnoise]
      rw [tensorAdd_of_length_eq
        (by rw [length_meshFlatten, List.length_map, List.length_range])]
      rw [hh]
    · rw [List.length_zipWith, length_meshFlatten, List.length_map,
        List.length_range, min_self]
  · refine ⟨meshFlatten (linspace (-1) 1 n) n, ?_, length_meshFlatten _ _⟩
    rw [compute_integration_grid]
    simp only [← hdefn, hg1, hg0, if_neg hnoise]
    rw [hh]

/-- For `N` within the table, the jittered sample construction succeeds and
row `j` is `ldSample j`. -/
theorem ld_sample_points_eq (table : List V3) (rand : ℕ → V3) (noise : ℚ)
    (N : ℕ) (hN : N ≤ table.length) :
    tensorAdd ((table.take N).map vremap)
        ((List.range N).map (fun j => noise • rand j)) =
      some ((List.range N).map (ldSample table rand noise)) := by
  rw [map_take_eq_map_range vremap 0 N table hN,
    tensorAdd_of_length_eq (by rw [List.length_map, List.length_map]),
    zipWith_map_same]
  rfl

/-- The `ACC_ld` inner loop body equals the spec row formula. -/
theorem ACC_ld_row_eq (tnorm : V3 → ℚ) (rho : V3 → ℚ) (table : List V3)
    (rand : ℕ → V3) (noise : ℚ) (N : ℕ) (t : V3) :
    (-8 : ℚ) • ((N : ℚ)⁻¹ •
        ((((List.range N).map (ldSample table rand noise)).map (fun s =>
          (rho s / tnorm (t - s) ^ 3) • (t - s))).sum)) =
      ACC_ld_specRow tnorm rho table rand noise N t := by
  rw [List.map_map]
  show (-8 : ℚ) • ((N : ℚ)⁻¹ • ((List.range N).map (fun j =>
    (rho (ldSample table rand noise j) /
      tnorm (t - ldSample table rand noise j) ^ 3) •
        (t - ldSample table rand noise j))).sum) = _
  rw [sum_map_range, ACC_ld_specRow, smul_smul]
  have hc : (-8 : ℚ) * (N : ℚ)⁻¹ = -(8 / (N : ℚ)) := by
    rw [div_eq_mul_inv]; ring
  rw [hc]
  congr 1
  refine Finset.sum_congr rfl (fun j _ => ?_)
  rw [smul_smul, div_eq_mul_inv]

/-- `U_ld` when the budget exceeds the table: the console message is printed
and the jittered-sample construction then fails with a broadcasting
`RuntimeError` (lengths `table.length` vs `N`), so no result is produced. -/
theorem U_ld_overflow (tnorm : V3 → ℚ) (rho : V3 → ℚ) (table : List V3)
    (rand : ℕ → V3) (targets : List V3) (N : ℕ) (noise : ℚ)
    (h : table.length < N) :
    (U_ld tnorm rho table rand targets N noise).1 ≠ [] ∧
      (U_ld tnorm rho table rand targets N noise).2 = .error .runtimeError := by
  have hadd : tensorAdd ((table.take N).map vremap)
      ((List.range N).map (fun j => noise • rand j)) = none := by
    rw [tensorAdd, if_neg]
    rw [List.length_map, List.length_take, List.length_map, List.length_range]
    omega
  constructor
  · simp only [U_ld, hadd, if_pos h]
    intro hc
    cases hc
  · simp only [U_ld, hadd]

/-- `U_ld` within the table: no message, and the plain result. -/
theorem U_ld_ok (tnorm : V3 → ℚ) (rho : V3 → ℚ) (table : List V3)
    (rand : ℕ → V3) (targets : List V3) (N : ℕ) (noise : ℚ)
    (hN : N ≤ table.length) :
    U_ld tnorm rho table rand targets N noise =
      ([], .ok (targets.map (fun t =>
        -8 * ((((List.range N).map (ldSample table rand noise)).map
          (fun s => rho s / tnorm (t - s))).sum / (N : ℚ))))) := by
  simp only [U_ld, ld_sample_points_eq table rand noise N hN,
    if_neg (by omega : ¬table.length < N)]

/-- `ACC_ld` when the budget exceeds the table: `ValueError`, raised before
any computation. -/
theorem ACC_ld_overflow (tnorm : V3 → ℚ) (rho : V3 → ℚ) (table : List V3)
    (rand : ℕ → V3) (targets : List V3) (N : ℕ) (noise : ℚ)
    (h : table.length < N) :
    ACC_ld tnorm rho table rand targets N noise = .error .valueError := by
  rw [ACC_ld, if_pos h]

/-- `ACC_ld` within the table: each row is the spec formula. -/
theorem ACC_ld_ok (tnorm : V3 → ℚ) (rho : V3 → ℚ) (table : List V3)
    (rand : ℕ → V3) (targets : List V3) (N : ℕ) (noise : ℚ)
    (hN : N ≤ table.length) :
    ACC_ld tnorm rho table rand targets N noise =
      .ok (targets.map (ACC_ld_specRow tnorm rho table rand noise N)) := by
  rw [ACC_ld, if_neg (by omega : ¬table.length < N),
    ld_sample_points_eq table rand noise N hN]
  show Except.ok (targets.map (fun t =>
    (-8 : ℚ) • ((N : ℚ)⁻¹ •
      ((((List.range N).map (ldSample table rand noise)).map (fun s =>
        (rho s / tnorm (t - s) ^ 3) • (t - s))).sum)))) = _
  rw [List.map_congr_left
    (fun t _ => ACC_ld_row_eq tnorm rho table rand noise N t)]

section TrapSpec

variable {α : Type} [AddCommGroup α] [Module ℚ α]

theorem tail_of_map_range (g : ℕ → α) (n : ℕ) :
    ((List.range n).map g).tail = (List.range (n - 1)).map (fun i => g (i + 1)) := by
  rw [← List.map_tail, tail_range, List.map_map]
  rfl

theorem dropLast_of_map_range (g : ℕ → α) (n : ℕ) :
    ((List.range n).map g).dropLast = (List.range (n - 1)).map g := by
  rw [← List.map_dropLast, dropLast_range]

/-- The slice-add-scale-sum reduction of a mapped range is `trapAxis`. -/
theorem trapZ_range (hv : ℚ) (n : ℕ) (g : ℕ → α) :
    trapZ hv ((List.range n).map g) = trapAxis hv n g := by
  rw [trapZ, t1add, dropLast_of_map_range, tail_of_map_range, zipWith_map_same,
    t1smul, List.map_map, trapAxis, ← sum_map_range]
  rfl

/-- `int_x` of a 3-D lattice row-reduces every innermost slice. -/
theorem trapX_eq (hv : ℚ) (t : List (List (List α))) :
    trapX hv t = t.map (fun r => r.map (trapZ hv)) := by
  rw [trapX, t3sliceLow, t3sliceHigh, t3add, zipWith_map_same, t3smul,
    List.map_map, t3sumLast, List.map_map]
  refine List.map_congr_left (fun r _ => ?_)
  simp only [Function.comp]
  rw [t2add, zipWith_map_same, t2smul, List.map_map, List.map_map]
  rfl

/-- `int_y` of a 2-D tensor row-reduces every row. -/
theorem trapY_eq (hv : ℚ) (t : List (List α)) :
    trapY hv t = t.map (trapZ hv) := by
  rw [trapY, t2sliceLow, t2sliceHigh, t2add, zipWith_map_same, t2smul,
    List.map_map, t2sumLast, List.map_map]
  rfl

/-- The whole reduction of a flat `n³` batch equals the spec's sequential
triple trapezoid over the row-major entries. -/
theorem trapReduce_eq (hv : ℚ) (n : ℕ) (flat : List α) :
    trapReduce hv n flat =
      trapTriple hv n (fun i j k => flat.getD ((i * n + j) * n + k) 0) := by
  rw [trapReduce, reshape3, trapX_eq, List.map_map]
  have h1 : ∀ i : ℕ, ((fun r => r.map (trapZ hv)) ∘ fun i =>
      (List.range n).map (fun j =>
        (List.range n).map (fun k => flat.getD ((i * n + j) * n + k) 0))) i =
      (List.range n).map (fun j =>
        trapAxis hv n (fun k => flat.getD ((i * n + j) * n + k) 0)) := by
    intro i
    simp only [Function.comp, List.map_map]
    refine List.map_congr_left (fun j _ => ?_)
    simp only [Function.comp]
    exact trapZ_range hv n _
  rw [List.map_congr_left (fun i _ => h1 i), trapY_eq, List.map_map]
  have h2 : ∀ i : ℕ, (trapZ hv ∘ fun i => (List.range n).map (fun j =>
      trapAxis hv n (fun k => flat.getD ((i * n + j) * n + k) 0))) i =
      trapAxis hv n (fun j =>
        trapAxis hv n (fun k => flat.getD ((i * n + j) * n + k) 0)) := by
    intro i
    simp only [Function.comp]
    exact trapZ_range hv n _
  rw [List.map_congr_left (fun i _ => h2 i), trapZ_range, trapTriple]

/-- `trapAxis` only reads its function below `n`. -/
theorem trapAxis_congr (hv : ℚ) (n : ℕ) {g g' : ℕ → α}
    (h : ∀ i < n, g i = g' i) : trapAxis hv n g = trapAxis hv n g' := by
  refine Finset.sum_congr rfl (fun i hi => ?_)
  rw [Finset.mem_range] at hi
  rw [h i (by omega), h (i + 1) (by omega)]

/-- `trapTriple` only reads its function below `n` in each index. -/
theorem trapTriple_congr (hv : ℚ) (n : ℕ) {F G : ℕ → ℕ → ℕ → α}
    (h : ∀ i < n, ∀ j < n, ∀ k < n, F i j k = G i j k) :
    trapTriple hv n F = trapTriple hv n G := by
  refine trapAxis_congr hv n (fun i hi => ?_)
  refine trapAxis_congr hv n (fun j hj => ?_)
  exact trapAxis_congr hv n (fun k hk => h i hi j hj k hk)

/-- In-range `getD` of a mapped list. -/
theorem getD_map_lt {β : Type} (f : β → α) (pts : List β) (m : ℕ) (d : β)
    (hm : m < pts.length) : (pts.map f).getD m 0 = f (pts.getD m d) := by
  have hm' : m < (pts.map f).length := by rw [List.length_map]; exact hm
  rw [List.getD_eq_getElem?_getD, List.getElem?_eq_getElem hm',
    List.getD_eq_getElem?_getD, List.getElem?_eq_getElem hm]
  simp

/-- When the batch size matches, `trapBody` maps the negated reduction over
the targets (also when the target batch is empty). -/
theorem trapBody_ok (integrand : V3 → V3 → α) (targets pts : List V3)
    (hv : ℚ) (n : ℕ) (hlen : pts.length = n * n * n) :
    trapBody integrand targets pts hv n =
      .ok (targets.map (fun t => -trapReduce hv n (pts.map (integrand t)))) := by
  rw [trapBody]
  by_cases he : targets.isEmpty
  · rw [if_pos he, List.isEmpty_iff.mp he]
    rfl
  · rw [if_neg he, if_pos hlen]

/-- `trapBody` can fail, but never with a `ValueError`. -/
theorem trapBody_ne_valueError (integrand : V3 → V3 → α)
    (targets pts : List V3) (hv : ℚ) (n : ℕ) :
    trapBody integrand targets pts hv n ≠ .error .valueError := by
  rw [trapBody]
  by_cases he : targets.isEmpty
  · rw [if_pos he]; intro hc; cases hc
  · rw [if_neg he]
    by_cases hl : pts.length = n * n * n
    · rw [if_pos hl]; intro hc; cases hc
    · rw [if_neg hl]; intro hc; cases hc

end TrapSpec

/-- Explicit grid plus explicit spacing: the shared trapezoid body runs with
them, and the reduction is the spec's sequential triple trapezoid over the
row-major integrand lattice. -/
theorem trapCommon_given_eq {α : Type} [AddCommGroup α] [Module ℚ α]
    (integrand : V3 → V3 → α) (targets : List V3) (N : ℕ) (noise : ℚ)
    (rand : ℕ → V3) (pts : List V3) (hv : ℚ) (hlen : pts.length = N ^ 3) :
    trapCommon integrand targets N noise rand (some pts) (some hv) =
      .ok (targets.map (fun t => -trapTriple hv N (fun i j k =>
        integrand t (pts.getD ((i * N + j) * N + k) 0)))) := by
  show trapBody integrand targets pts hv N = _
  rw [trapBody_ok integrand targets pts hv N (by rw [hlen]; ring)]
  refine congrArg Except.ok (List.map_congr_left (fun t _ => ?_))
  rw [trapReduce_eq]
  refine congrArg Neg.neg (trapTriple_congr hv N (fun i hi j hj k hk => ?_))
  have hik : (i * N + j) * N + k < pts.length := by
    rw [hlen, pow_succ, pow_two]
    have h0 : (i + 1) * N ≤ N * N := Nat.mul_le_mul_right N hi
    have h1 : i * N + j + 1 ≤ N * N := by
      have he : i * N + N = (i + 1) * N := by ring
      omega
    have h2 : (i * N + j + 1) * N ≤ N * N * N := Nat.mul_le_mul_right N h1
    have h3 : (i * N + j) * N + N = (i * N + j + 1) * N := by ring
    omega
  exact getD_map_lt (integrand t) pts ((i * N + j) * N + k) 0 hik

/-- The first tensor index `grid_1d[1]` fails when the rounded resolution is
below 2, so `compute_integration_grid` raises an `IndexError`. -/
theorem compute_integration_grid_small (rand : ℕ → V3) (noise : ℚ) (N : ℕ)
    (hn : roundCbrt N ≤ 1) :
    compute_integration_grid rand noise N = .error .indexError := by
  have hg1 : getOrErr (linspace (-1) 1 (roundCbrt N)) 1 = .error .indexError := by
    rw [getOrErr, dif_neg]
    rw [length_linspace]
    omega
  cases hg0 : getOrErr (linspace (-1) 1 (roundCbrt N)) 0 with
  | error e => simp only [compute_integration_grid, hg1, hg0]
  | ok v => simp only [compute_integration_grid, hg1, hg0]

/-- `compute_integration_grid` never raises a `ValueError`. -/
theorem compute_integration_grid_ne_valueError (rand : ℕ → V3) (noise : ℚ)
    (N : ℕ) :
    compute_integration_grid rand noise N ≠ .error .valueError := by
  by_cases hn : roundCbrt N ≤ 1
  · rw [compute_integration_grid_small rand noise N hn]
    intro hc
    cases hc
  · obtain ⟨pts, hok, -⟩ :=
      compute_integration_grid_ok rand noise N (by omega)
    rw [hok]
    intro hc
    cases hc

/-- Neither trapezoid integrator can raise a `ValueError` once `trapBody` is
reached through the computed grid. -/
theorem trapCommon_none_ne_valueError {α : Type} [AddCommGroup α]
    [Module ℚ α] (integrand : V3 → V3 → α) (targets : List V3) (N : ℕ)
    (noise : ℚ) (rand : ℕ → V3) (hOpt : Option ℚ) :
    trapCommon integrand targets N noise rand none hOpt ≠
      .error .valueError := by
  show (match compute_integration_grid rand noise N with
    | .error e => .error e
    | .ok (pts, hv, n) => trapBody integrand targets pts hv n) ≠
      Except.error PyError.valueError
  cases hg : compute_integration_grid rand noise N with
  | error e =>
    have he := compute_integration_grid_ne_valueError rand noise N
    rw [hg] at he
    intro hc
    cases hc
    exact he rfl
  | ok v =>
    exact trapBody_ne_valueError integrand targets v.1 v.2.1 v.2.2

/-- For any budget `B ≥ 4` the rounded cube root is at least 2. -/
theorem roundCbrt_ge_two {B : ℕ} (hB : 4 ≤ B) : 2 ≤ roundCbrt B := by
  rcases roundCbrt_spec B with ⟨hup, hlow⟩
  by_contra hlt
  push_neg at hlt
  interval_cases h : roundCbrt B
  all_goals norm_num at hup; omega

theorem length_get_spherical_grid (qpi : ℚ) (qsin qcos : ℚ → ℚ) (N : ℕ)
    (radius : ℚ) :
    (_get_spherical_grid qpi qsin qcos N radius).length = roundSqrt N ^ 2 := by
  rw [_get_spherical_grid, length_flatMap_const _ _ (roundSqrt N) (fun a _ => by
    rw [List.length_map, List.length_range]), List.length_range]
  ring

/-! ## Claim theorems -/

/-- C1: For every batch of target points and every sample budget `N` within
the 200,000-point low-discrepancy table, the acceleration integrator
`ACC_ld` returns one row per target point, and its `i`-th row equals `-8/N`
times the sum over the `N` sample points of
`density(sample)·(targetᵢ - sample)/‖targetᵢ - sample‖³`, where the sample
points are the first `N` table points remapped from `[0,1)³` to `[-1,1)³`
plus uniform jitter of scale `noise`. -/
theorem C1_ACC_ld_rows (tnorm rho : V3 → ℚ) (table : List V3)
    (rand : ℕ → V3) (targets : List V3) (N : ℕ) (noise : ℚ)
    (htable : table.length = 200000) (hN : N ≤ 200000) :
    ∃ rows, ACC_ld tnorm rho table rand targets N noise = .ok rows ∧
      rows.length = targets.length ∧
      ∀ i < targets.length, rows.getD i 0 =
        ACC_ld_specRow tnorm rho table rand noise N (targets.getD i 0) := by
  refine ⟨_, ACC_ld_ok tnorm rho table rand targets N noise (by omega),
    List.length_map _ _, fun i hi => ?_⟩
  exact getD_map_lt (ACC_ld_specRow tnorm rho table rand noise N) targets i 0 hi

/-- Witness for C1 at a concrete table, target batch, and budget. -/
theorem C1_ACC_ld_rows_witness :
    tableStub.length = 200000 ∧ (3 : ℕ) ≤ 200000 ∧
      ∃ rows, ACC_ld (fun _ => 1) (fun _ => 1) tableStub (fun _ => 0)
          [((2 : ℚ), (0 : ℚ), (0 : ℚ))] 3 0 = .ok rows ∧
        rows.length = [((2 : ℚ), (0 : ℚ), (0 : ℚ))].length ∧
        ∀ i < [((2 : ℚ), (0 : ℚ), (0 : ℚ))].length, rows.getD i 0 =
          ACC_ld_specRow (fun _ => 1) (fun _ => 1) tableStub (fun _ => 0) 0 3
            ([((2 : ℚ), (0 : ℚ), (0 : ℚ))].getD i 0) :=
  ⟨by rw [tableStub, List.length_replicate], by norm_num,
    C1_ACC_ld_rows (fun _ => 1) (fun _ => 1) tableStub (fun _ => 0)
      [((2 : ℚ), (0 : ℚ), (0 : ℚ))] 3 0 (by rw [tableStub, List.length_replicate]) (by norm_num)⟩

/-- C2: With a supplied grid of `N³` points and spacing `h`, both trapezoid
integrators compute the per-sample integrand, reshape it to an `N×N×N`
lattice (row-major), reduce it by composite trapezoidal quadrature applied
sequentially along the three axes, innermost first — each axis reduction
turning a length-`N` axis into `N-1` cells contributing `h/2·(left+right)` —
and return the fully reduced value negated. -/
theorem C2_trap_reduction (tnorm rho : V3 → ℚ) (targets : List V3) (N : ℕ)
    (noise : ℚ) (rand : ℕ → V3) (pts : List V3) (hv : ℚ)
    (hlen : pts.length = N ^ 3) :
    U_trap_opt tnorm rho targets N noise rand (some pts) (some hv) =
      .ok (targets.map (fun t => -trapTriple hv N (fun i j k =>
        rho (pts.getD ((i * N + j) * N + k) 0) /
          tnorm (t - pts.getD ((i * N + j) * N + k) 0)))) ∧
    ACC_trap tnorm rho targets N noise rand (some pts) (some hv) =
      .ok (targets.map (fun t => -trapTriple hv N (fun i j k =>
        (rho (pts.getD ((i * N + j) * N + k) 0) /
          tnorm (t - pts.getD ((i * N + j) * N + k) 0) ^ 3) •
          (t - pts.getD ((i * N + j) * N + k) 0)))) :=
  ⟨trapCommon_given_eq _ targets N noise rand pts hv hlen,
   trapCommon_given_eq _ targets N noise rand pts hv hlen⟩

/-- Witness for C2 at a concrete one-point grid and one target. -/
theorem C2_trap_reduction_witness :
    ([((0 : ℚ), (0 : ℚ), (0 : ℚ))] : List V3).length = 1 ^ 3 ∧
      (U_trap_opt (fun _ => 1) (fun _ => 1) [((2 : ℚ), (0 : ℚ), (0 : ℚ))] 1 0
          (fun _ => 0) (some [((0 : ℚ), (0 : ℚ), (0 : ℚ))]) (some 1) =
        .ok ([((2 : ℚ), (0 : ℚ), (0 : ℚ))].map (fun t =>
          -trapTriple 1 1 (fun i j k =>
            (fun _ => (1 : ℚ)) (([((0 : ℚ), (0 : ℚ), (0 : ℚ))] : List V3).getD
                ((i * 1 + j) * 1 + k) 0) /
              (fun _ => (1 : ℚ)) (t - ([((0 : ℚ), (0 : ℚ), (0 : ℚ))] : List V3).getD
                ((i * 1 + j) * 1 + k) 0)))) ∧
      ACC_trap (fun _ => 1) (fun _ => 1) [((2 : ℚ), (0 : ℚ), (0 : ℚ))] 1 0
          (fun _ => 0) (some [((0 : ℚ), (0 : ℚ), (0 : ℚ))]) (some 1) =
        .ok ([((2 : ℚ), (0 : ℚ), (0 : ℚ))].map (fun t =>
          -trapTriple 1 1 (fun i j k =>
            ((fun _ => (1 : ℚ)) (([((0 : ℚ), (0 : ℚ), (0 : ℚ))] : List V3).getD
                ((i * 1 + j) * 1 + k) 0) /
              (fun _ => (1 : ℚ)) (t - ([((0 : ℚ), (0 : ℚ), (0 : ℚ))] : List V3).getD
                ((i * 1 + j) * 1 + k) 0) ^ 3) •
              (t - ([((0 : ℚ), (0 : ℚ), (0 : ℚ))] : List V3).getD
                ((i * 1 + j) * 1 + k) 0))))) :=
  ⟨by norm_num,
    C2_trap_reduction (fun _ => 1) (fun _ => 1) [((2 : ℚ), (0 : ℚ), (0 : ℚ))]
      1 0 (fun _ => 0) [((0 : ℚ), (0 : ℚ), (0 : ℚ))] 1 (by norm_num)⟩

/-- C3: whenever `compute_integration_grid` succeeds with per-axis
resolution `n ≥ 2`, the spacing it returns is `2/(n-1)`, the spacing of the
uniform `[-1,1]` grid with `n` points per axis. -/
theorem C3_grid_spacing (rand : ℕ → V3) (noise : ℚ) (B : ℕ)
    (pts : List V3) (h : ℚ) (n : ℕ)
    (hok : compute_integration_grid rand noise B = .ok (pts, h, n))
    (hn : 2 ≤ n) : h = 2 / ((n : ℚ) - 1) := by
  by_cases hsmall : roundCbrt B ≤ 1
  · rw [compute_integration_grid_small rand noise B hsmall] at hok
    cases hok
  · obtain ⟨pts', hok', -⟩ :=
      compute_integration_grid_ok rand noise B (by omega)
    rw [hok'] at hok
    simp only [Except.ok.injEq, Prod.mk.injEq] at hok
    obtain ⟨-, hh, hn'⟩ := hok
    rw [← hh, ← hn']

/-- Witness for C3: budget 8 yields resolution 2 and spacing `2/(2-1)`. -/
theorem C3_grid_spacing_witness :
    ∃ pts h n, compute_integration_grid (fun _ => 0) 0 8 = .ok (pts, h, n) ∧
      2 ≤ n ∧ h = 2 / ((n : ℚ) - 1) := by
  obtain ⟨pts, hok, -⟩ :=
    compute_integration_grid_ok (fun _ => 0) 0 8 (by decide)
  exact ⟨pts, _, _, hok, by decide,
    C3_grid_spacing (fun _ => 0) 0 8 pts _ _ hok (by decide)⟩

/-- C4 counterexample: at the requested budget 1 the claim fails —
`compute_integration_grid` does not return any grid at all: the rounded
resolution is 1, so reading `grid_1d[1]` for the spacing raises an
`IndexError`. -/
theorem C4_counterexample :
    compute_integration_grid (fun _ => 0) 0 1 = .error .indexError :=
  compute_integration_grid_small (fun _ => 0) 0 1 (by decide)

/-- C4 (amended): for every requested budget `B` whose rounded cube root is
at least 2 (equivalently `B ≥ 4`), `compute_integration_grid` returns
exactly `n³` points together with the resolution `n`, where `n` is the
integer nearest to the cube root of `B` (so the actual count is a perfect
cube and may differ from the request); for smaller budgets the call raises
an `IndexError` instead. -/
theorem C4_grid_count (rand : ℕ → V3) (noise : ℚ) (B : ℕ) (hB : 4 ≤ B) :
    ∃ pts h, compute_integration_grid rand noise B =
        .ok (pts, h, roundCbrt B) ∧
      pts.length = roundCbrt B ^ 3 ∧
      (2 * (roundCbrt B : ℤ) - 1) ^ 3 ≤ 8 * B ∧
      (8 * B : ℤ) < (2 * roundCbrt B + 1) ^ 3 := by
  have h2 := roundCbrt_ge_two hB
  obtain ⟨pts, hok, hlen⟩ := compute_integration_grid_ok rand noise B h2
  refine ⟨pts, _, hok, hlen, ?_, ?_⟩
  · rcases roundCbrt_spec B with ⟨-, hlow⟩
    have hm := hlow (roundCbrt B - 1) (by omega)
    push_neg at hm
    have hcast : (2 * (roundCbrt B : ℤ) - 1) =
        ((2 * (roundCbrt B - 1) + 1 : ℕ) : ℤ) := by
      push_cast [Nat.cast_sub (by omega : 1 ≤ roundCbrt B)]
      ring
    rw [hcast]
    exact_mod_cast hm
  · rcases roundCbrt_spec B with ⟨hup, -⟩
    exact_mod_cast hup

/-- Witness for C4 at budget 8. -/
theorem C4_grid_count_witness :
    (4 : ℕ) ≤ 8 ∧
      ∃ pts h, compute_integration_grid (fun _ => 0) 0 8 =
          .ok (pts, h, roundCbrt 8) ∧
        pts.length = roundCbrt 8 ^ 3 ∧
        (2 * (roundCbrt 8 : ℤ) - 1) ^ 3 ≤ 8 * 8 ∧
        (8 * 8 : ℤ) < (2 * roundCbrt 8 + 1) ^ 3 :=
  ⟨by norm_num, C4_grid_count (fun _ => 0) 0 8 (by norm_num)⟩

/-- C5 counterexample: with the full 200,000-row table and `N = 200001`,
`U_ld` does print its warning, but it does not continue to a result: the
jittered-sample construction fails with a broadcasting `RuntimeError`
(200,000 table rows against 200,001 jitter rows), refuting «only emits a
warning and continues». -/
theorem C5_counterexample :
    (U_ld (fun _ => 1) (fun _ => 1) tableStub (fun _ => 0)
        [((0 : ℚ), (0 : ℚ), (0 : ℚ))] 200001 0).1 ≠ [] ∧
      (U_ld (fun _ => 1) (fun _ => 1) tableStub (fun _ => 0)
        [((0 : ℚ), (0 : ℚ), (0 : ℚ))] 200001 0).2 = .error .runtimeError :=
  U_ld_overflow (fun _ => 1) (fun _ => 1) tableStub (fun _ => 0)
    [((0 : ℚ), (0 : ℚ), (0 : ℚ))] 200001 0
    (by rw [tableStub, List.length_replicate]; omega)

/-- C5 (amended): when the budget `N` exceeds the 200,000-point table,
`ACC_ld` raises a `ValueError` before computing anything, while `U_ld`
emits its warning and then fails with a broadcasting `RuntimeError` instead
of producing a result; for `N ≤ 200,000` neither signals anything. -/
theorem C5_ld_overflow_policy (tnorm rho : V3 → ℚ) (table : List V3)
    (rand : ℕ → V3) (targets : List V3) (N : ℕ) (noise : ℚ)
    (htable : table.length = 200000) :
    (200000 < N →
      ACC_ld tnorm rho table rand targets N noise = .error .valueError ∧
      (U_ld tnorm rho table rand targets N noise).1 ≠ [] ∧
      (U_ld tnorm rho table rand targets N noise).2 = .error .runtimeError) ∧
    (N ≤ 200000 →
      (∃ v, ACC_ld tnorm rho table rand targets N noise = .ok v) ∧
      (U_ld tnorm rho table rand targets N noise).1 = [] ∧
      (∃ v, (U_ld tnorm rho table rand targets N noise).2 = .ok v)) := by
  constructor
  · intro hN
    obtain ⟨hw, hr⟩ := U_ld_overflow tnorm rho table rand targets N noise
      (by omega)
    exact ⟨ACC_ld_overflow tnorm rho table rand targets N noise (by omega),
      hw, hr⟩
  · intro hN
    have hu := U_ld_ok tnorm rho table rand targets N noise (by omega)
    refine ⟨⟨_, ACC_ld_ok tnorm rho table rand targets N noise (by omega)⟩,
      ?_, ?_⟩
    · rw [hu]
    · rw [hu]
      exact ⟨_, rfl⟩

/-- Witness for C5 at the concrete table. -/
theorem C5_ld_overflow_policy_witness :
    tableStub.length = 200000 ∧
      ((200000 < 150 →
        ACC_ld (fun _ => 1) (fun _ => 1) tableStub (fun _ => 0) [] 150 0 =
          .error .valueError ∧
        (U_ld (fun _ => 1) (fun _ => 1) tableStub (fun _ => 0) [] 150 0).1 ≠ [] ∧
        (U_ld (fun _ => 1) (fun _ => 1) tableStub (fun _ => 0) [] 150 0).2 =
          .error .runtimeError) ∧
      (150 ≤ 200000 →
        (∃ v, ACC_ld (fun _ => 1) (fun _ => 1) tableStub (fun _ => 0) [] 150 0 =
          .ok v) ∧
        (U_ld (fun _ => 1) (fun _ => 1) tableStub (fun _ => 0) [] 150 0).1 = [] ∧
        (∃ v, (U_ld (fun _ => 1) (fun _ => 1) tableStub (fun _ => 0) [] 150 0).2 =
          .ok v))) :=
  ⟨by rw [tableStub, List.length_replicate],
    C5_ld_overflow_policy (fun _ => 1) (fun _ => 1) tableStub (fun _ => 0)
      [] 150 0 (by rw [tableStub, List.length_replicate])⟩

/-- C6: supplying `sample_points` to a trapezoid integrator without `h`
fails with a `ValueError`; when both are supplied, or neither, no such
error is raised (other failures, such as a reshape size mismatch or an
out-of-bounds grid read, are different error kinds). -/
theorem C6_missing_h (tnorm rho : V3 → ℚ) (targets : List V3) (N : ℕ)
    (noise : ℚ) (rand : ℕ → V3) (pts : List V3) :
    (U_trap_opt tnorm rho targets N noise rand (some pts) none =
        .error .valueError ∧
      ACC_trap tnorm rho targets N noise rand (some pts) none =
        .error .valueError) ∧
    (∀ hv, U_trap_opt tnorm rho targets N noise rand (some pts) (some hv) ≠
        .error .valueError ∧
      ACC_trap tnorm rho targets N noise rand (some pts) (some hv) ≠
        .error .valueError) ∧
    (∀ hOpt, U_trap_opt tnorm rho targets N noise rand none hOpt ≠
        .error .valueError ∧
      ACC_trap tnorm rho targets N noise rand none hOpt ≠
        .error .valueError) := by
  refine ⟨⟨rfl, rfl⟩, fun hv => ⟨?_, ?_⟩, fun hOpt => ⟨?_, ?_⟩⟩
  · exact trapBody_ne_valueError _ targets pts hv N
  · exact trapBody_ne_valueError _ targets pts hv N
  · exact trapCommon_none_ne_valueError _ targets N noise rand hOpt
  · exact trapCommon_none_ne_valueError _ targets N noise rand hOpt

/-- C7: the density-field evaluation step encodes the raw points; the
warning flag is raised exactly when some encoded value is NaN, in which case
the model is invoked on the encoding output with every NaN replaced by 0
(and the replaced batch holds no NaN at all); otherwise the model is invoked
on the unchanged encoding output. -/
theorem C7_nan_sanitization {μ : Type} (model : List (List FP) → μ)
    (encoding : V3 → List FP) (sample_points : List V3) :
    _compute_model_output model encoding sample_points =
      (anyNaN (sample_points.map encoding),
        model (if anyNaN (sample_points.map encoding) then
            zeroNaNs (sample_points.map encoding)
          else sample_points.map encoding)) ∧
    ∀ row ∈ zeroNaNs (sample_points.map encoding), ∀ x ∈ row,
      x.isNaN = false := by
  constructor
  · rw [_compute_model_output]
    cases h : anyNaN (sample_points.map encoding) <;> simp [h]
  · intro row hrow x hx
    rw [zeroNaNs] at hrow
    rcases List.mem_map.mp hrow with ⟨r, -, rfl⟩
    rcases List.mem_map.mp hx with ⟨y, -, rfl⟩
    cases hy : y.isNaN with
    | false => simp only [hy, Bool.false_eq_true, if_false]
    | true => simp only [hy, if_true]; rfl

/-- C8 counterexample: requesting 3 points from `spherical_grid` yields 4
points (the square root is rounded to the *nearest* integer, 2, not down to
1), so the returned count exceeds the request, refuting «rounds the
requested N down … so the returned count never exceeds N».  The trig
parameters are irrelevant to the count. -/
theorem C8_counterexample :
    (_get_spherical_grid 0 (fun _ => 0) (fun _ => 0) 3
        (173205 / 100000)).length = 4 ∧
      3 < (_get_spherical_grid 0 (fun _ => 0) (fun _ => 0) 3
        (173205 / 100000)).length := by
  have h := length_get_spherical_grid 0 (fun _ => 0) (fun _ => 0) 3
    (173205 / 100000)
  constructor
  · rw [h]; decide
  · rw [h]; decide

/-- C8 (amended): for every requested count `N`, `spherical_grid` returns
`n²` points where `n` is the *nearest* integer to `√N` (characterised by
`(n-1/2)² ≤ N < (n+1/2)²`, scaled by 4); the count is always a perfect
square but may exceed `N`. -/
theorem C8_spherical_grid_count (qpi : ℚ) (qsin qcos : ℚ → ℚ) (N : ℕ)
    (radius : ℚ) :
    (_get_spherical_grid qpi qsin qcos N radius).length = roundSqrt N ^ 2 ∧
      4 * N < (2 * roundSqrt N + 1) ^ 2 ∧
      (roundSqrt N = 0 ∨ (2 * roundSqrt N - 1) ^ 2 ≤ 4 * N) := by
  refine ⟨length_get_spherical_grid qpi qsin qcos N radius,
    (roundSqrt_spec N).1, ?_⟩
  rcases Nat.eq_zero_or_pos (roundSqrt N) with h | h
  · exact Or.inl h
  · right
    have hm := (roundSqrt_spec N).2 (roundSqrt N - 1) (by omega)
    push_neg at hm
    have heq : 2 * (roundSqrt N - 1) + 1 = 2 * roundSqrt N - 1 := by omega
    rwa [heq] at hm

/-- C9 counterexample: `scale_bounds = (-1, 0)` satisfies the claim's only
assumption `scale_bounds[0] < scale_bounds[1]`, yet the sampler returns no
batch at all: `scale_bounds[0]/scale_bounds[1]` raises a
`ZeroDivisionError`. -/
theorem C9_counterexample :
    ((-1 : ℚ) < 0) ∧
      _sample_cubical (fun _ => 0) 1 (-1) 0 = .error .zeroDivisionError := by
  constructor
  · norm_num
  · simp [_sample_cubical, pydiv]

/-- C9 (amended): for every `N` and every `scale_bounds` with
`scale_bounds[0] < scale_bounds[1]` and `0 < scale_bounds[1]`, the cubical
sampler succeeds; every returned point has at least one coordinate strictly
beyond the inner bound `scale_bounds[0]`, at most `N` points are returned,
and the batch is exactly the first `N` survivors of
`int(2·N/(1-(scale_bounds[0]/scale_bounds[1])³))` candidate points. -/
theorem C9_cubical_sampler (rand : ℕ → V3) (N : ℕ) (s0 s1 : ℚ)
    (h01 : s0 < s1) (h1 : 0 < s1) :
    ∃ pts, _sample_cubical rand N s0 s1 = .ok pts ∧
      pts.length ≤ N ∧
      (∀ p ∈ pts, p.1 < -s0 ∨ p.1 > s0 ∨ p.2.1 < -s0 ∨ p.2.1 > s0 ∨
        p.2.2 < -s0 ∨ p.2.2 > s0) ∧
      pts = (_limit_to_domain
          ((List.range
            ((pytrunc (2 * (N : ℚ) / (1 - (s0 / s1) ^ 3))).toNat)).map
            (fun j => s1 • ((2 : ℚ) • rand j - ((1 : ℚ), (1 : ℚ), (1 : ℚ)))))
          ((s0 * (-1), s0 * 1), (s0 * (-1), s0 * 1),
            (s0 * (-1), s0 * 1))).take N := by
  have hs1 : s1 ≠ 0 := ne_of_gt h1
  have hratio : s0 / s1 < 1 := (div_lt_one h1).mpr h01
  have hquad : 0 < (s0 / s1) ^ 2 + (s0 / s1) + 1 := by
    nlinarith [sq_nonneg (s0 / s1 + 1), sq_nonneg (s0 / s1)]
  have hcube : (s0 / s1) ^ 3 < 1 := by
    have hprod := mul_pos (by linarith : (0 : ℚ) < 1 - s0 / s1) hquad
    nlinarith [hprod]
  have hd1 : pydiv s0 s1 = .ok (s0 / s1) := by rw [pydiv, if_neg hs1]
  have hd2 : pydiv 1 (1 - (s0 / s1) ^ 3) =
      .ok (1 / (1 - (s0 / s1) ^ 3)) := by
    rw [pydiv, if_neg (by linarith)]
  have hqpos : (0 : ℚ) ≤ 2 * (N : ℚ) * (1 / (1 - (s0 / s1) ^ 3)) := by
    have hpos : (0 : ℚ) < 1 - (s0 / s1) ^ 3 := by linarith
    positivity
  have hcnt : ¬(pytrunc (2 * (N : ℚ) * (1 / (1 - (s0 / s1) ^ 3))) < 0) := by
    rw [pytrunc, if_pos hqpos]
    push_neg
    exact Int.floor_nonneg.mpr hqpos
  have hmain : _sample_cubical rand N s0 s1 = .ok ((_limit_to_domain
      ((List.range
        ((pytrunc (2 * (N : ℚ) * (1 / (1 - (s0 / s1) ^ 3)))).toNat)).map
        (fun j => s1 • ((2 : ℚ) • rand j - ((1 : ℚ), (1 : ℚ), (1 : ℚ)))))
      ((s0 * (-1), s0 * 1), (s0 * (-1), s0 * 1),
        (s0 * (-1), s0 * 1))).take N) := by
    simp only [_sample_cubical, hd1, hd2, if_neg hcnt]
  refine ⟨_, hmain, List.length_take_le _ _, ?_, ?_⟩
  · intro p hp
    have hp' := List.mem_of_mem_take hp
    rw [_limit_to_domain, List.mem_filter] at hp'
    have hb := hp'.2
    simp only [Bool.or_eq_true, decide_eq_true_eq, mul_neg_one, mul_one]
      at hb
    tauto
  · rw [mul_one_div]

/-- C10: degenerate scale bounds `scale_bounds[0] = scale_bounds[1]` make
the cubical sampler raise a `ZeroDivisionError` while computing the
oversampling count (for a zero bound already at `scale_bounds[0] /
scale_bounds[1]`), instead of returning an empty batch. -/
theorem C10_degenerate_scale_bounds (rand : ℕ → V3) (N : ℕ) (s : ℚ) :
    _sample_cubical rand N s s = .error .zeroDivisionError := by
  by_cases hs : s = 0
  · subst hs
    simp [_sample_cubical, pydiv]
  · have hd1 : pydiv s s = .ok (s / s) := by rw [pydiv, if_neg hs]
    have hone : s / s = 1 := div_self hs
    have hd2 : pydiv 1 (1 - (s / s) ^ 3) = .error .zeroDivisionError := by
      rw [hone]
      norm_num [pydiv]
    simp only [_sample_cubical, hd1, hd2]

/-- Witness for C9 at concrete bounds `(1/2, 1)`. -/
theorem C9_cubical_sampler_witness :
    ((1 : ℚ) / 2 < 1) ∧ ((0 : ℚ) < 1) ∧
      (∃ pts, _sample_cubical (fun _ => 0) 2 (1 / 2) 1 = .ok pts ∧
        pts.length ≤ 2 ∧
        (∀ p ∈ pts, p.1 < -(1 / 2 : ℚ) ∨ p.1 > (1 / 2 : ℚ) ∨
          p.2.1 < -(1 / 2 : ℚ) ∨ p.2.1 > (1 / 2 : ℚ) ∨
          p.2.2 < -(1 / 2 : ℚ) ∨ p.2.2 > (1 / 2 : ℚ)) ∧
        pts = (_limit_to_domain
            ((List.range
              ((pytrunc (2 * (2 : ℚ) /
                (1 - ((1 / 2 : ℚ) / 1) ^ 3))).toNat)).map
              (fun j => (1 : ℚ) • ((2 : ℚ) • (fun _ : ℕ => (0 : V3)) j -
                ((1 : ℚ), (1 : ℚ), (1 : ℚ)))))
            (((1 / 2 : ℚ) * (-1), (1 / 2 : ℚ) * 1),
              ((1 / 2 : ℚ) * (-1), (1 / 2 : ℚ) * 1),
              ((1 / 2 : ℚ) * (-1), (1 / 2 : ℚ) * 1))).take 2) :=
  ⟨by norm_num, by norm_num,
    C9_cubical_sampler (fun _ => 0) 2 (1 / 2) 1 (by norm_num) (by norm_num)⟩

end Gravann
